import Mathlib

/-!
Verification development for the speechspeed speaking-speed analyzer.

The program is a single React component (src/src/App.tsx, with a second
variant in src/unnamed/part_000).  Its core engine is embedded here as
pure functions over an explicit state record:

* text is modelled as `List Char` (JavaScript strings);
* durations are rationals (JavaScript numbers restricted to the exact
  arithmetic the program performs on them);
* `Math.round` is `jsRound`, rounding half toward positive infinity;
* each event handler (`recognition.onresult` together with the WPM
  `useEffect`, `stopRecording`, `reset`, `recognition.onend`) becomes a
  function from state to state.
-/

/-- Whitespace test used by `trim` and by splitting on the regex of
whitespace runs in the source. -/
def isWs (c : Char) : Bool := c.isWhitespace

/-- The JavaScript `String.prototype.trim`: drop whitespace from both
ends of the character list. -/
def trimChars (l : List Char) : List Char :=
  ((l.dropWhile isWs).reverse.dropWhile isWs).reverse

/-- Helper for `countWords`: walk the characters keeping a flag that
records whether we are inside a word, counting word starts. -/
def countWordsGo : List Char → Bool → Nat
  | [], _ => 0
  | c :: cs, inWord =>
    if isWs c then countWordsGo cs false
    else (if inWord then 0 else 1) + countWordsGo cs true

/-- Number of maximal non-whitespace runs: the denotation of the
source's `split(/\s+/).filter(word => word.length > 0).length`. -/
def countWords (l : List Char) : Nat := countWordsGo l false

/-- Word count of a transcript as computed throughout the source:
trim, split on whitespace runs, count the non-empty pieces. -/
def wordCountOf (l : List Char) : Nat := countWords (trimChars l)

/-- JavaScript `Math.round`: round half toward positive infinity. -/
def jsRound (q : ℚ) : ℤ := ⌊q + 1 / 2⌋

/-- The final-WPM expression of `stopRecording`:
`finalDuration > 0 ? Math.round((finalWordCount / finalDuration) * 60) : 0`. -/
def finalWpm (wordCount : ℕ) (duration : ℚ) : ℤ :=
  if 0 < duration then jsRound ((wordCount : ℚ) / duration * 60) else 0

/-- One entry of the recognition event's `results` list: a fragment of
transcribed text tagged final or interim. -/
structure RecResult where
  transcript : List Char
  isFinal : Bool
deriving DecidableEq, Repr

/-- Texts of the results marked final, in ascending index order. -/
def finalTexts (rs : List RecResult) : List (List Char) :=
  (rs.filter (fun r => r.isFinal)).map (fun r => r.transcript)

/-- The stable portion of the reconstructed transcript: concatenation
of every final result's text (the `completeTranscript` loop over all
indices in `recognition.onresult`). -/
def stablePart (rs : List RecResult) : List Char :=
  (finalTexts rs).flatten

/-- The interim portion: concatenation of the non-final results from
`event.resultIndex` on (the `interimTranscript` accumulation in
`recognition.onresult`). -/
def interimPart (resultIndex : ℕ) (rs : List RecResult) : List Char :=
  (((rs.drop resultIndex).filter (fun r => !r.isFinal)).map
    (fun r => r.transcript)).flatten

/-- The `fullTranscript` built by `recognition.onresult`:
`completeTranscript + interimTranscript`. -/
def aggregate (resultIndex : ℕ) (rs : List RecResult) : List Char :=
  stablePart rs ++ interimPart resultIndex rs

/-- A completed-session summary (`SpeechResult` in the source).
The `timestamp` is the wall-clock completion instant supplied to
`stopRecording`; `region` is the opaque selected-region key. -/
structure SpeechResult where
  transcript : List Char
  wordCount : ℕ
  duration : ℚ
  wpm : ℤ
  timestamp : ℕ
  region : List Char
deriving DecidableEq, Repr

/-- The four numeric breakpoints of a regional speed profile
(the `ranges` field of a `RegionSpeed` entry). -/
structure Ranges where
  slow : ℤ
  normalLow : ℤ
  normalHigh : ℤ
  fast : ℤ
  veryFast : ℤ
deriving DecidableEq, Repr

/-- Qualitative speed band returned by `getWpmLabel`:
`pending` is the `'Calculating...'` label shown for the sentinel 0. -/
inductive Band where
  | pending
  | tooSlow
  | ideal
  | fast
  | veryFast
deriving DecidableEq, Repr

/-- The `getWpmLabel` classifier of src/src/App.tsx, with labels
replaced by the `Band` constructors in source order. -/
def getWpmLabel (wpm : ℤ) (r : Ranges) : Band :=
  if wpm = 0 then .pending
  else if wpm < r.slow then .tooSlow
  else if r.normalLow ≤ wpm ∧ wpm ≤ r.normalHigh then .ideal
  else if wpm < r.fast then .fast
  else .veryFast

/-- Ordering invariant a region profile is expected to satisfy:
`slow < normal.low ≤ normal.high < fast < veryFast`. -/
def Ranges.Valid (r : Ranges) : Prop :=
  r.slow < r.normalLow ∧ r.normalLow ≤ r.normalHigh ∧
    r.normalHigh < r.fast ∧ r.fast < r.veryFast

/-- The `'us'` entry of `REGIONAL_SPEEDS`:
`ranges: { slow: 120, normal: [150, 180], fast: 200, veryFast: 220 }`. -/
def usRanges : Ranges :=
  { slow := 120, normalLow := 150, normalHigh := 180,
    fast := 200, veryFast := 220 }

/-- The component state of `App` that the engine mutates:
the `useState` cells plus the `currentTranscriptRef` ref. -/
structure AppState where
  isRecording : Bool
  transcript : List Char
  wordCount : ℕ
  duration : ℚ
  wpm : ℤ
  results : List SpeechResult
  error : List Char
  selectedRegion : List Char
  currentTranscript : List Char
deriving DecidableEq, Repr

/-- The WPM-calculation `useEffect` of src/src/App.tsx: when recording
with `duration >= 30` and a non-blank transcript, recompute word count
and WPM; when recording with a non-blank transcript but under 30
seconds, recompute the word count and hold WPM at 0; otherwise leave
the state untouched. -/
def wpmEffect (s : AppState) : AppState :=
  if s.isRecording = true ∧ 30 ≤ s.duration ∧ trimChars s.transcript ≠ [] then
    { s with wordCount := wordCountOf s.transcript,
             wpm := jsRound ((wordCountOf s.transcript : ℚ) / s.duration * 60) }
  else if s.isRecording = true ∧ trimChars s.transcript ≠ [] then
    { s with wordCount := wordCountOf s.transcript, wpm := 0 }
  else s

/-- The `recognition.onresult` handler followed by the WPM effect it
triggers: rebuild the full transcript from the snapshot, store it in
both the transcript state and the ref, then run the effect. -/
def handleResult (resultIndex : ℕ) (rs : List RecResult) (s : AppState) :
    AppState :=
  wpmEffect { s with transcript := aggregate resultIndex rs,
                     currentTranscript := aggregate resultIndex rs }

/-- History insertion of `stopRecording`:
`setResults(prev => [result, ...prev].slice(0, 10))`. -/
def appendResult (r : SpeechResult) (l : List SpeechResult) :
    List SpeechResult :=
  (r :: l).take 10

/-- The `SpeechResult` object `stopRecording` constructs from the
current state at completion instant `now`. -/
def mkResult (now : ℕ) (s : AppState) : SpeechResult :=
  { transcript := trimChars s.currentTranscript,
    wordCount := countWords (trimChars s.currentTranscript),
    duration := s.duration,
    wpm := finalWpm (countWords (trimChars s.currentTranscript)) s.duration,
    timestamp := now,
    region := s.selectedRegion }

/-- `stopRecording`: leave Recording, compute the final stats from the
transcript ref and the last sampled duration, and append a result to
the history exactly when the trimmed transcript is non-empty and the
word count is positive. -/
def stopRecording (now : ℕ) (s : AppState) : AppState :=
  let s' := { s with isRecording := false }
  if trimChars s.currentTranscript ≠ [] ∧
      0 < countWords (trimChars s.currentTranscript) then
    { s' with results := appendResult (mkResult now s) s.results }
  else s'

/-- `reset`: clear transcript, word count, duration, WPM, error and the
transcript ref; everything else (in particular `results`) is untouched. -/
def reset (s : AppState) : AppState :=
  { s with transcript := [], wordCount := 0, duration := 0, wpm := 0,
           error := [], currentTranscript := [] }

/-- The `recognition.onerror` handler: surface the message and leave
Recording. -/
def handleError (msg : List Char) (s : AppState) : AppState :=
  { s with error := msg, isRecording := false }

/-- The `recognition.onend` handler of the recognition instance on
which it fires.  The handler mutates no component state; when its
guard passes it calls `recognition.start()` inside `try`/`catch` whose
catch only logs.  Its `if (isRecording)` guard reads the `isRecording`
value captured when the `[isRecording]` effect created that instance
(a closure over that render's state), not the live state — and the
instance `startRecording` actually starts is the one built in a render
with `isRecording = false`, since the click handler starts the current
ref synchronously before the re-render replaces it, so the started
instance's handler captured `false`.  The returned flag records
whether a restart was requested; `restartOk` models whether that
`start()` call would have thrown, which is unobservable in the state. -/
def handleEnd (captured : Bool) (s : AppState) (restartOk : Bool) :
    AppState × Bool :=
  (s, captured)

/-- Sample in-flight recording state, past the activation threshold. -/
def recS : AppState :=
  { isRecording := true, transcript := ['h', 'i'], wordCount := 1,
    duration := 40, wpm := 3, results := [], error := [],
    selectedRegion := ['u', 's'], currentTranscript := ['h', 'i'] }

/-- Sample idle state, as left just after a stop. -/
def idleS : AppState :=
  { isRecording := false, transcript := ['o', 'l', 'd'], wordCount := 1,
    duration := 12, wpm := 0, results := [], error := [],
    selectedRegion := ['u', 's'], currentTranscript := ['o', 'l', 'd'] }

/-- Sample recording state stopped before the activation threshold. -/
def earlyS : AppState :=
  { isRecording := true, transcript := ['h', 'i', ' ', 'y', 'o'],
    wordCount := 2, duration := 20, wpm := 0, results := [], error := [],
    selectedRegion := ['u', 's'],
    currentTranscript := ['h', 'i', ' ', 'y', 'o'] }

/-- Sample completed-session summary used to populate histories. -/
def sr0 : SpeechResult :=
  { transcript := ['a'], wordCount := 1, duration := 2, wpm := 30,
    timestamp := 0, region := ['u', 's'] }

/-- A second, distinct sample summary. -/
def sr1 : SpeechResult :=
  { transcript := ['b'], wordCount := 1, duration := 3, wpm := 20,
    timestamp := 1, region := ['u', 's'] }

/-- Sample snapshot: one final fragment and one interim fragment. -/
def snap1 : List RecResult :=
  [⟨['h', 'i', ' '], true⟩, ⟨['y', 'o'], false⟩]

/-- Later snapshot extending `snap1`: the interim fragment has been
finalized (with revised text) and a new interim fragment follows. -/
def snap2 : List RecResult :=
  [⟨['h', 'i', ' '], true⟩, ⟨['y', 'o', 'u'], true⟩, ⟨['a'], false⟩]

/-! ### Helper lemmas -/

/-- A non-empty `dropWhile isWs` residue contains a non-whitespace
character (its head). -/
theorem dropWhile_has_nonws :
    ∀ l : List Char, l.dropWhile isWs ≠ [] →
      ∃ c ∈ l.dropWhile isWs, isWs c = false := by
  intro l
  induction l with
  | nil => simp
  | cons a t ih =>
    by_cases ha : isWs a
    · simpa [List.dropWhile_cons, ha] using ih
    · intro _
      refine ⟨a, ?_, ?_⟩
      · simp [List.dropWhile_cons, ha]
      · simpa using ha

/-- A non-empty trimmed transcript contains a non-whitespace
character. -/
theorem trim_has_nonws (l : List Char) (h : trimChars l ≠ []) :
    ∃ c ∈ trimChars l, isWs c = false := by
  have h' : ((l.dropWhile isWs).reverse).dropWhile isWs ≠ [] := by
    intro e
    exact h (by simp [trimChars, e])
  obtain ⟨c, hc, hws⟩ := dropWhile_has_nonws ((l.dropWhile isWs).reverse) h'
  exact ⟨c, by simpa [trimChars] using List.mem_reverse.mpr hc, hws⟩

/-- A character list containing a non-whitespace character has a
positive word count. -/
theorem countWordsGo_pos :
    ∀ l : List Char, (∃ c ∈ l, isWs c = false) → 0 < countWordsGo l false := by
  intro l
  induction l with
  | nil => simp
  | cons a t ih =>
    rintro ⟨c, hc, hws⟩
    by_cases ha : isWs a
    · have hct : c ∈ t := by
        rcases List.mem_cons.mp hc with rfl | h'
        · rw [hws] at ha
          exact absurd ha (by simp)
        · exact h'
      simpa [countWordsGo, ha] using ih ⟨c, hct, hws⟩
    · simp [countWordsGo, ha]

/-- The word count of a non-empty trimmed transcript is positive: this
is why the source's `finalTranscript && finalWordCount > 0` guard is
equivalent to non-blankness of the transcript alone. -/
theorem countWords_trim_pos (l : List Char) (h : trimChars l ≠ []) :
    0 < countWords (trimChars l) :=
  countWordsGo_pos _ (trim_has_nonws l h)

/-! ### Claims -/

/-- C1: for consecutive recognition snapshots whose final-result texts
extend those of the previous snapshot (the capability contract of
spec §6: finalized fragments are immutable and finals only accumulate),
the reconstructed transcript decomposes as stable prefix plus interim
suffix, the earlier stable prefix is a prefix of the later transcript,
and both transcripts agree on the earlier finalized prefix: the
finalized prefix is append-only and only the trailing interim portion
is replaced wholesale. -/
theorem aggregate_final_append_only (idx idx' : ℕ) (rs rs' : List RecResult)
    (h : finalTexts rs <+: finalTexts rs') :
    aggregate idx rs = stablePart rs ++ interimPart idx rs ∧
    (∃ t, aggregate idx' rs' = stablePart rs ++ t) ∧
    (aggregate idx rs).take (stablePart rs).length = stablePart rs ∧
    (aggregate idx' rs').take (stablePart rs).length = stablePart rs := by
  obtain ⟨u, hu⟩ := h
  have h2 : aggregate idx' rs' =
      stablePart rs ++ (u.flatten ++ interimPart idx' rs') := by
    rw [aggregate, stablePart, stablePart, ← hu, List.flatten_append,
      List.append_assoc]
  refine ⟨rfl, ⟨_, h2⟩, ?_, ?_⟩
  · unfold aggregate
    exact List.take_left _ _
  · rw [h2]
    exact List.take_left _ _

/-- Witness for C1 at the concrete snapshots `snap1` and `snap2`. -/
theorem aggregate_final_append_only_witness :
    aggregate 1 snap1 = stablePart snap1 ++ interimPart 1 snap1 ∧
    (∃ t, aggregate 2 snap2 = stablePart snap1 ++ t) ∧
    (aggregate 1 snap1).take (stablePart snap1).length = stablePart snap1 ∧
    (aggregate 2 snap2).take (stablePart snap1).length = stablePart snap1 :=
  aggregate_final_append_only 1 2 snap1 snap2 ⟨[['y', 'o', 'u']], by decide⟩

/-- C2 counterexample: a snapshot callback that fires on an Idle state
(after `stopRecording` has run) still overwrites the transcript —
`recognition.onresult` has no recording-state guard. -/
theorem handleResult_after_stop_cex :
    idleS.isRecording = false ∧
    (handleResult 0 [⟨['n', 'e', 'w'], true⟩] idleS).transcript ≠
      idleS.transcript := by
  decide

/-- C2 (amended): a snapshot callback arriving after `stop()` has
transitioned the session to Idle leaves word count, WPM, history,
error, and duration unchanged (the metrics effect is guarded by the
recording flag), but it still overwrites the live transcript and the
transcript ref with the stale snapshot's content. -/
theorem handleResult_after_stop (idx : ℕ) (rs : List RecResult)
    (s : AppState) (h : s.isRecording = false) :
    (handleResult idx rs s).wordCount = s.wordCount ∧
    (handleResult idx rs s).wpm = s.wpm ∧
    (handleResult idx rs s).results = s.results ∧
    (handleResult idx rs s).error = s.error ∧
    (handleResult idx rs s).duration = s.duration ∧
    (handleResult idx rs s).isRecording = false ∧
    (handleResult idx rs s).transcript = aggregate idx rs ∧
    (handleResult idx rs s).currentTranscript = aggregate idx rs := by
  simp [handleResult, wpmEffect, h]

/-- Witness for C2's amended theorem at a concrete idle state. -/
theorem handleResult_after_stop_witness :
    (handleResult 0 [⟨['n', 'e', 'w'], true⟩] idleS).wordCount =
        idleS.wordCount ∧
    (handleResult 0 [⟨['n', 'e', 'w'], true⟩] idleS).wpm = idleS.wpm ∧
    (handleResult 0 [⟨['n', 'e', 'w'], true⟩] idleS).results =
        idleS.results ∧
    (handleResult 0 [⟨['n', 'e', 'w'], true⟩] idleS).error = idleS.error ∧
    (handleResult 0 [⟨['n', 'e', 'w'], true⟩] idleS).duration =
        idleS.duration ∧
    (handleResult 0 [⟨['n', 'e', 'w'], true⟩] idleS).isRecording = false ∧
    (handleResult 0 [⟨['n', 'e', 'w'], true⟩] idleS).transcript =
        aggregate 0 [⟨['n', 'e', 'w'], true⟩] ∧
    (handleResult 0 [⟨['n', 'e', 'w'], true⟩] idleS).currentTranscript =
        aggregate 0 [⟨['n', 'e', 'w'], true⟩] :=
  handleResult_after_stop 0 [⟨['n', 'e', 'w'], true⟩] idleS (by decide)

/-- C3 counterexample: at 40 seconds of recording, a snapshot whose
reconstructed transcript is blank leaves both WPM and word count at
their stale previous values — the effect's `transcript.trim()` guard
skips recomputation, so WPM is not recomputed on every update once the
threshold is passed, and the word count is not always recomputed. -/
theorem handleResult_wpm_policy_cex :
    recS.isRecording = true ∧ 30 ≤ recS.duration ∧
    (handleResult 0 [] recS).wpm = 3 ∧
    (handleResult 0 [] recS).wordCount = 1 ∧
    wordCountOf (aggregate 0 []) = 0 ∧
    jsRound ((wordCountOf (aggregate 0 []) : ℚ) / recS.duration * 60) = 0 := by
  refine ⟨by decide, by decide, by decide, by decide, by decide, ?_⟩
  have e : wordCountOf (aggregate 0 []) = 0 := by decide
  rw [e]
  norm_num [jsRound, recS]

/-- C3 (amended): while Recording below the 30-second threshold, a
snapshot update keeps WPM at the sentinel 0, and recomputes the word
count whenever the reconstructed transcript is non-blank; from 30
seconds on, every snapshot update with a non-blank transcript
recomputes both word count and WPM by the full formula; a snapshot
leaving a blank (empty or whitespace-only) transcript changes neither
word count nor WPM. -/
theorem handleResult_wpm_policy (idx : ℕ) (rs : List RecResult)
    (s : AppState) (hrec : s.isRecording = true) :
    (s.duration < 30 → s.wpm = 0 → (handleResult idx rs s).wpm = 0) ∧
    (s.duration < 30 → trimChars (aggregate idx rs) ≠ [] →
      (handleResult idx rs s).wordCount = wordCountOf (aggregate idx rs) ∧
      (handleResult idx rs s).wpm = 0) ∧
    (30 ≤ s.duration → trimChars (aggregate idx rs) ≠ [] →
      (handleResult idx rs s).wordCount = wordCountOf (aggregate idx rs) ∧
      (handleResult idx rs s).wpm =
        jsRound ((wordCountOf (aggregate idx rs) : ℚ) / s.duration * 60)) ∧
    (trimChars (aggregate idx rs) = [] →
      (handleResult idx rs s).wordCount = s.wordCount ∧
      (handleResult idx rs s).wpm = s.wpm) := by
  simp only [handleResult, wpmEffect, hrec]
  by_cases hd : 30 ≤ s.duration <;>
    by_cases ht : trimChars (aggregate idx rs) ≠ [] <;>
    simp [hd, ht]

/-- Witness for C3's amended theorem at a concrete early-recording
state and snapshot. -/
theorem handleResult_wpm_policy_witness :
    (handleResult 1 snap1 earlyS).wordCount = wordCountOf (aggregate 1 snap1) ∧
    (handleResult 1 snap1 earlyS).wpm = 0 :=
  (handleResult_wpm_policy 1 snap1 earlyS (by decide)).2.1 (by norm_num [earlyS])
    (by decide)

/-- C4: `stopRecording` appends a `SpeechResult` to the history exactly
when the trimmed transcript is non-empty (in which case the word count
is automatically positive, so the source's conjunctive guard agrees);
with an empty or whitespace-only transcript the history is unchanged. -/
theorem stopRecording_history (now : ℕ) (s : AppState) :
    (trimChars s.currentTranscript ≠ [] →
      (stopRecording now s).results = appendResult (mkResult now s) s.results) ∧
    ((trimChars s.currentTranscript = [] ∨
        countWords (trimChars s.currentTranscript) = 0) →
      (stopRecording now s).results = s.results) ∧
    (trimChars s.currentTranscript ≠ [] →
      0 < countWords (trimChars s.currentTranscript)) := by
  refine ⟨?_, ?_, countWords_trim_pos _⟩
  · intro h
    simp [stopRecording, h, countWords_trim_pos _ h]
  · rintro (h | h)
    · simp [stopRecording, h]
    · have hng : ¬(trimChars s.currentTranscript ≠ [] ∧
          0 < countWords (trimChars s.currentTranscript)) := by
        rintro ⟨h1, h2⟩
        omega
      simp [stopRecording, hng]

/-- Witness for C4 at a concrete state with a non-blank transcript. -/
theorem stopRecording_history_witness :
    (stopRecording 5 earlyS).results =
      appendResult (mkResult 5 earlyS) earlyS.results :=
  (stopRecording_history 5 earlyS).1 (by decide)

/-- C5: history insertion puts the new result at the head, the stored
history never exceeds the capacity 10, below capacity nothing is
evicted, and at capacity exactly the oldest (tail) entry is dropped,
preserving newest-first order of the rest. -/
theorem appendResult_spec (r : SpeechResult) (l : List SpeechResult) :
    (appendResult r l).head? = some r ∧
    (appendResult r l).length ≤ 10 ∧
    (l.length < 10 → appendResult r l = r :: l) ∧
    (l.length = 10 → appendResult r l = r :: l.dropLast) := by
  refine ⟨rfl, ?_, ?_, ?_⟩
  · simp [appendResult, List.length_take]
  · intro h
    have h10 : (r :: l).length ≤ 10 := by
      simp only [List.length_cons]
      omega
    simp [appendResult, List.take_of_length_le h10]
  · intro h
    have h9 : l.take 9 = l.dropLast := by
      rw [List.dropLast_eq_take, h]
    calc appendResult r l = r :: l.take 9 := rfl
      _ = r :: l.dropLast := by rw [h9]

/-- Witness for C5 at a concrete full history. -/
theorem appendResult_spec_witness :
    appendResult sr1 (List.replicate 10 sr0) =
      sr1 :: (List.replicate 10 sr0).dropLast :=
  (appendResult_spec sr1 (List.replicate 10 sr0)).2.2.2 (by decide)

/-- C6: the final-WPM computation equals the rounded rate formula for
positive elapsed time, is 0 at elapsed time 0, and is 0 whenever the
word count is 0. -/
theorem finalWpm_spec (w : ℕ) (t : ℚ) :
    (0 < t → finalWpm w t = jsRound ((w : ℚ) / t * 60)) ∧
    (t = 0 → finalWpm w t = 0) ∧
    (0 ≤ t → finalWpm 0 t = 0) ∧
    finalWpm w 0 = 0 := by
  refine ⟨fun h => by simp [finalWpm, h], fun h => by simp [finalWpm, h],
    fun _ => ?_, by simp [finalWpm]⟩
  by_cases h0 : 0 < t
  · simp only [finalWpm, h0, if_true, jsRound, Nat.cast_zero, zero_div,
      zero_mul, zero_add]
    norm_num
  · simp [finalWpm, h0]

/-- Witness for C6 at the spec's worked example: 8 words in 31
seconds give WPM 15. -/
theorem finalWpm_spec_witness :
    finalWpm 8 31 = jsRound ((8 : ℚ) / 31 * 60) ∧ finalWpm 8 31 = 15 := by
  refine ⟨(finalWpm_spec 8 31).1 (by norm_num), ?_⟩
  norm_num [finalWpm, jsRound]

/-- C7: for every profile satisfying the ordering invariant, the band
classifier returns exactly: Pending on the sentinel 0; TooSlow on
nonzero values below `slow`; Ideal on nonzero values inside the closed
normal interval; Fast on nonzero values at or above `slow`, outside the
normal interval, and below `fast`; VeryFast on the rest — the
order-independent reading of the source's ordered conditional chain. -/
theorem getWpmLabel_cases (w : ℤ) (r : Ranges) (h : r.Valid) :
    (getWpmLabel w r = Band.pending ↔ w = 0) ∧
    (getWpmLabel w r = Band.tooSlow ↔ w ≠ 0 ∧ w < r.slow) ∧
    (getWpmLabel w r = Band.ideal ↔
      w ≠ 0 ∧ r.normalLow ≤ w ∧ w ≤ r.normalHigh) ∧
    (getWpmLabel w r = Band.fast ↔ w ≠ 0 ∧ r.slow ≤ w ∧
      (w < r.normalLow ∨ r.normalHigh < w) ∧ w < r.fast) ∧
    (getWpmLabel w r = Band.veryFast ↔ w ≠ 0 ∧ r.slow ≤ w ∧
      (w < r.normalLow ∨ r.normalHigh < w) ∧ r.fast ≤ w) := by
  obtain ⟨v1, v2, v3⟩ := h
  unfold getWpmLabel
  split_ifs with h1 h2 h3 h4 <;>
    refine ⟨?_, ?_, ?_, ?_, ?_⟩ <;> constructor <;> intro hx <;>
    simp_all <;> omega

/-- Witness for C7: 165 WPM is Ideal for the United States profile. -/
theorem getWpmLabel_cases_witness :
    getWpmLabel 165 usRanges = Band.ideal :=
  ((getWpmLabel_cases 165 usRanges
      ⟨by decide, by decide, by decide, by decide⟩).2.2.1).mpr
    ⟨by decide, by decide, by decide⟩

/-- C8: evaluating `handleEnd` at the failing configuration — a
spontaneous termination signal from the started recognition instance
(whose handler captured `isRecording = false`) while the session state
is Recording.  No restart is requested, for either outcome of a
would-be restart, although the state remains Recording and no
`SpeechResult` is produced: the immediate-restart clause of the claim
(and of the source's own comment above the restart call) does not hold
of the program, because the `onend` closure's captured flag is stale. -/
theorem handleEnd_no_restart :
    recS.isRecording = true ∧
    handleEnd false recS true = (recS, false) ∧
    handleEnd false recS false = (recS, false) ∧
    (handleEnd false recS true).1.isRecording = true ∧
    (handleEnd false recS true).1.results = recS.results := by
  decide

/-- C9: `reset` clears the transcript, word count, WPM, error message
(and the duration and transcript ref) to their initial values, and
leaves the history, the recording flag, and the selected region
unchanged. -/
theorem reset_frame (s : AppState) :
    (reset s).transcript = [] ∧ (reset s).wordCount = 0 ∧
    (reset s).wpm = 0 ∧ (reset s).error = [] ∧
    (reset s).duration = 0 ∧ (reset s).currentTranscript = [] ∧
    (reset s).results = s.results ∧
    (reset s).isRecording = s.isRecording ∧
    (reset s).selectedRegion = s.selectedRegion := by
  simp [reset]

/-- C10: stopping a session with a non-blank transcript whose duration
is strictly between 0 and the 30-second activation threshold stores at
the head of the history a result whose WPM is computed by the full
rounded formula — and that stored WPM is in fact positive — even
though the live WPM was held at the sentinel 0. -/
theorem stopRecording_early_full_formula (now : ℕ) (s : AppState)
    (h1 : trimChars s.currentTranscript ≠ []) (h2 : 0 < s.duration)
    (h3 : s.duration < 30) (h4 : s.wpm = 0) :
    (stopRecording now s).results.head? = some (mkResult now s) ∧
    (mkResult now s).wpm =
      jsRound ((countWords (trimChars s.currentTranscript) : ℚ) /
        s.duration * 60) ∧
    0 < (mkResult now s).wpm := by
  have hw := countWords_trim_pos s.currentTranscript h1
  have hwpm : (mkResult now s).wpm =
      jsRound ((countWords (trimChars s.currentTranscript) : ℚ) /
        s.duration * 60) := by
    simp [mkResult, finalWpm, h2]
  refine ⟨?_, hwpm, ?_⟩
  · simp [stopRecording, h1, hw, appendResult]
  · rw [hwpm]
    have hc : (1 : ℚ) ≤ (countWords (trimChars s.currentTranscript) : ℚ) := by
      exact_mod_cast hw
    have hx : (2 : ℚ) ≤
        (countWords (trimChars s.currentTranscript) : ℚ) / s.duration * 60 := by
      rw [div_mul_eq_mul_div, le_div_iff₀ h2]
      nlinarith
    have hf : (2 : ℤ) ≤ jsRound
        ((countWords (trimChars s.currentTranscript) : ℚ) /
          s.duration * 60) := by
      rw [jsRound]
      apply Int.le_floor.mpr
      push_cast
      linarith
    omega

/-- Witness for C10 at a 20-second session with transcript content. -/
theorem stopRecording_early_full_formula_witness :
    (stopRecording 7 earlyS).results.head? = some (mkResult 7 earlyS) ∧
    (mkResult 7 earlyS).wpm =
      jsRound ((countWords (trimChars earlyS.currentTranscript) : ℚ) /
        earlyS.duration * 60) ∧
    0 < (mkResult 7 earlyS).wpm :=
  stopRecording_early_full_formula 7 earlyS (by decide)
    (by norm_num [earlyS]) (by norm_num [earlyS]) (by decide)
